import Mathlib

/-!
Shallow embedding of `blue_st_sdk/manager.py` (BlueSTSDK_Python).

The `Manager` class owns a list of discovered nodes (a Python list object,
mutated in place and returned by reference from `get_nodes`), a scanning
flag, a listener list, and a class-level features-decoder dictionary.
Python list/dict objects are modelled by a small heap (a list of stored
values, addresses are indices) so that the copy-versus-alias behaviour of
`get_nodes` (returns the list itself) and `get_node_features` (returns a
`.copy()`) is observable.  Listener callbacks submitted to the thread pool
are modelled as an explicit event trace.  Exceptions are modelled with an
explicit error type; methods that can raise return the mutations they
performed together with an `Except` result, matching Python where in-place
mutations survive a raised exception.
-/

deriving instance DecidableEq for Except

namespace BlueST

/-- Modelled from the spec: connection status of a node
(`blue_st_sdk/node.py` is not among the analysed sources; the spec's data
model lists the enum Idle, Connecting, Connected, Disconnected). -/
inductive NodeStatus where
  | idle
  | connecting
  | connected
  | disconnected
deriving DecidableEq

/-- Modelled from the spec: a discovered BLE node, carrying its unique tag
(hardware address string) and its connection status.  `manager.py` uses
nodes only through `get_tag()` and `is_connected()`. -/
structure Node where
  tag : String
  status : NodeStatus
deriving DecidableEq

/-- Modelled from the spec: `Node.get_tag()` returns the unique tag. -/
def Node.get_tag (n : Node) : String := n.tag

/-- Modelled from the spec: `Node.is_connected()` holds exactly when the
node's connection status is Connected. -/
def Node.is_connected (n : Node) : Bool := n.status == NodeStatus.connected

/-- Heap of Python list-of-node objects: addresses are indices into
`lists`.  `self._discovered_nodes` is one such object. -/
structure NodeHeap where
  lists : List (List Node)
deriving DecidableEq

/-- Dereference a list object (out-of-range addresses are junk `[]`). -/
def NodeHeap.read (h : NodeHeap) (a : Nat) : List Node := h.lists.getD a []

/-- In-place mutation of the list object stored at address `a`. -/
def NodeHeap.write (h : NodeHeap) (a : Nat) (l : List Node) : NodeHeap :=
  ⟨h.lists.set a l⟩

/-- Errors raised by the embedded code.  `nameError` models Python's
NameError (undefined name), `invalidMask` the SDK's
InvalidFeatureBitMaskException, `alreadyExists` the Exception raised by
`Manager.__init__` on duplicate construction, `btle` a bluepy
BTLEException, `attributeError` Python's AttributeError. -/
inductive PyErr where
  | nameError
  | invalidMask
  | alreadyExists
  | btle
  | attributeError
deriving DecidableEq

/-- A listener callback submitted to the manager's thread pool.  Listeners
are identified by a numeric id. -/
inductive Event where
  | discovery_change (listener : Nat) (enabled : Bool)
  | node_discovered (listener : Nat) (node : Node)
deriving DecidableEq

/-- State of a `Manager` instance: `_is_scanning`, the address of the
`_discovered_nodes` list object, the heap of list objects, `_scanner`,
`_scanner_thread`, and `_listeners` (listener ids, in insertion order). -/
structure ManagerSt where
  is_scanning : Bool
  nodesAddr : Nat
  heap : NodeHeap
  scanner : Option Unit
  scanner_thread : Option Unit
  listeners : List Nat
deriving DecidableEq

/-- `Manager.__init__` field initialisation (lines 230-248): not scanning,
fresh empty node list, no scanner, no scanner thread, no listeners. -/
def mk_manager_state : ManagerSt :=
  { is_scanning := false
    nodesAddr := 0
    heap := ⟨[[]]⟩
    scanner := none
    scanner_thread := none
    listeners := [] }

/-- The current value of the manager's `_discovered_nodes` list object. -/
def nodes_of (st : ManagerSt) : List Node := st.heap.read st.nodesAddr

/-- The tags of the manager's node list, in order. -/
def tags_of (st : ManagerSt) : List String := (nodes_of st).map Node.get_tag

/-- The node-list address is a valid heap address (true of every state
reachable from `mk_manager_state`: heap writes preserve length). -/
def ManagerSt.nodes_wf (st : ManagerSt) : Prop :=
  st.nodesAddr < st.heap.lists.length

instance (st : ManagerSt) : Decidable st.nodes_wf := by
  unfold ManagerSt.nodes_wf
  infer_instance

/-- `_SCANNING_TIME_DEFAULT_s` (line 60). -/
def SCANNING_TIME_DEFAULT_s : Nat := 10

/-- `Manager.is_discovering` (lines 358-364): returns `self._is_scanning`. -/
def is_discovering (st : ManagerSt) : Bool := st.is_scanning

/-- `Manager._notify_discovery_change` (lines 382-393): sets
`self._is_scanning = status` and submits `on_discovery_change` to the
thread pool once per registered listener. -/
def notify_discovery_change (st : ManagerSt) (status : Bool) :
    ManagerSt × List Event :=
  ({ st with is_scanning := status },
   st.listeners.map (fun li => Event.discovery_change li status))

/-- `Manager._notify_new_node_discovered` (lines 395-404): submits
`on_node_discovered` once per registered listener. -/
def notify_new_node_discovered (st : ManagerSt) (n : Node) : List Event :=
  st.listeners.map (fun li => Event.node_discovered li n)

/-- `Manager.add_node` (lines 406-423): under the node-list lock, return
False if some node already in the list has the new node's tag; otherwise
append the node in place; outside the lock notify the listeners and
return True. -/
def add_node (st : ManagerSt) (new_node : Node) : ManagerSt × Bool × List Event :=
  let l := nodes_of st
  if l.any (fun node => new_node.get_tag == node.get_tag) then
    (st, false, [])
  else
    ({ st with heap := st.heap.write st.nodesAddr (l ++ [new_node]) },
     true,
     notify_new_node_discovered st new_node)

/-- Fold a sequence of `add_node` calls (keeping only the state). -/
def apply_add_nodes (st : ManagerSt) (ns : List Node) : ManagerSt :=
  ns.foldl (fun s n => (add_node s n).1) st

/-- `Manager.get_nodes` (lines 425-433): returns `self._discovered_nodes`
itself — the list object, not a copy — so the result is the address of the
manager's node list.  (The in-tree caller, `_ScannerDelegate`, copies it
with `[:]` at line 104 precisely because no copy is made here.) -/
def get_nodes (st : ManagerSt) : Nat := st.nodesAddr

/-- The iteration of `Manager.remove_nodes` (lines 473-476):
`for node in self._discovered_nodes: if not node.is_connected():
self._discovered_nodes.remove(node)`.  Python's list iterator fetches
index `i` from the *current* list and advances `i` by one each step;
`remove` deletes the first element equal to the fetched node, shifting the
rest left.  `fuel` bounds the number of iterator steps; it is called with
the initial list length, which is exact: each step increases `i` by one
and the list never grows, so the iterator stops within that many steps. -/
def remove_nodes_loop (fuel : Nat) (l : List Node) (i : Nat) : List Node :=
  match fuel with
  | 0 => l
  | fuel + 1 =>
    if h : i < l.length then
      let node := l.get ⟨i, h⟩
      if node.is_connected then
        remove_nodes_loop fuel l (i + 1)
      else
        remove_nodes_loop fuel (l.erase node) (i + 1)
    else
      l

/-- `Manager.remove_nodes` (lines 471-476): in-place removal, during a
forward iteration, of every node the iteration reaches that is not
connected. -/
def remove_nodes (st : ManagerSt) : ManagerSt :=
  { st with
    heap := st.heap.write st.nodesAddr
      (remove_nodes_loop (nodes_of st).length (nodes_of st) 0) }

/-- `Manager.discover` (lines 261-296).  The bluepy `Scanner.scan` call is
external; its outcome is the oracle `scan_result` (the advertisement
deliveries it makes through `_ScannerDelegate` are outside this state).
On a BTLEException from the driver the method re-raises a wrapped
BTLEException; note that `_is_scanning` is left True in that path. -/
def discover (scan_result : Except Unit Unit) (st : ManagerSt)
    (show_warnings : Bool) (timeout_s : Nat) :
    ManagerSt × List Event × Except PyErr Bool :=
  if is_discovering st then
    (st, [], Except.ok false)
  else
    let timeout_s' := if timeout_s = 0 then SCANNING_TIME_DEFAULT_s else timeout_s
    let (st1, evs1) := notify_discovery_change st true
    let st2 := { st1 with scanner := some () }
    match timeout_s', show_warnings, scan_result with
    | _, _, Except.error _ => (st2, evs1, Except.error PyErr.btle)
    | _, _, Except.ok _ =>
      let (st3, evs2) := notify_discovery_change st2 false
      (st3, evs1 ++ evs2, Except.ok true)

/-- `Manager.start_discovery` (lines 298-332): fails fast when already
scanning; otherwise notifies discovery-start, creates and starts the
`_StoppableScanner` thread, and returns True. -/
def start_discovery (st : ManagerSt) (show_warnings : Bool) (timeout_s : Nat) :
    ManagerSt × List Event × Except PyErr Bool :=
  if is_discovering st then
    (st, [], Except.ok false)
  else
    let timeout_s' := if timeout_s = 0 then SCANNING_TIME_DEFAULT_s else timeout_s
    let (st1, evs1) := notify_discovery_change st true
    match timeout_s', show_warnings with
    | _, _ => ({ st1 with scanner_thread := some () }, evs1, Except.ok true)

/-- `Manager.stop_discovery` (lines 334-356): when scanning, stop and join
the scanner thread (`join_result` is the oracle for the thread's captured
driver failure, re-raised by `join`; when `_scanner_thread` is None the
attribute access itself raises), then notify discovery-stop and return
True; when not scanning, return False. -/
def stop_discovery (join_result : Except Unit Unit) (st : ManagerSt) :
    ManagerSt × List Event × Except PyErr Bool :=
  if is_discovering st then
    match st.scanner_thread with
    | none => (st, [], Except.error PyErr.attributeError)
    | some _ =>
      match join_result with
      | Except.error _ => (st, [], Except.error PyErr.btle)
      | Except.ok _ =>
        let (st1, evs) := notify_discovery_change st false
        (st1, evs, Except.ok true)
  else
    (st, [], Except.ok false)

/-- `Manager.reset_discovery` (lines 366-380): stop any running discovery
(a raised BTLEException propagates, skipping the removal), then
`remove_nodes`. -/
def reset_discovery (join_result : Except Unit Unit) (st : ManagerSt) :
    ManagerSt × List Event × Except PyErr Unit :=
  if is_discovering st then
    match stop_discovery join_result st with
    | (st1, evs, Except.error e) => (st1, evs, Except.error e)
    | (st1, evs, Except.ok _) => (remove_nodes st1, evs, Except.ok ())
  else
    (remove_nodes st, [], Except.ok ())

/-- `Manager.__init__` (lines 224-248) acting on the class attribute
`_INSTANCE` (the argument): raises when `_INSTANCE` is not None, otherwise
builds a fresh manager.  The constructor only *reads* `_INSTANCE`; it
never assigns it, so the class attribute after a successful construction
is returned unchanged. -/
def manager_init (g : Option ManagerSt) :
    Except PyErr (ManagerSt × Option ManagerSt) :=
  match g with
  | some _ => Except.error PyErr.alreadyExists
  | none => Except.ok (mk_manager_state, none)

/-- `Manager.instance` (lines 250-259): when `_INSTANCE` is None, run
`self._INSTANCE = Manager()` (the construction `manager_init none`
succeeds with `mk_manager_state`, and the assignment stores it); then
return `_INSTANCE`. -/
def manager_instance (g : Option ManagerSt) : ManagerSt × Option ManagerSt :=
  match g with
  | none => (mk_manager_state, some mk_manager_state)
  | some m => (m, some m)

/-- `Manager.add_listener` (lines 552-562): ignore None; under the
manager's own lock, append the listener only when not already present. -/
def add_listener (st : ManagerSt) (listener : Option Nat) : ManagerSt :=
  match listener with
  | none => st
  | some l =>
    if l ∈ st.listeners then st
    else { st with listeners := st.listeners ++ [l] }

/-- `Manager.remove_listener` (lines 564-574): ignore None; under the
manager's own lock, remove the listener (first occurrence) only when
present. -/
def remove_listener (st : ManagerSt) (listener : Option Nat) : ManagerSt :=
  match listener with
  | none => st
  | some l =>
    if l ∈ st.listeners then { st with listeners := st.listeners.erase l }
    else st

/-- A feature class, abstractly (an identifier). -/
abbrev FeatureClass := Nat

/-- A Python dict from feature mask to feature class: association list in
insertion order with unique keys. -/
abbrev FeatureDict := List (Nat × FeatureClass)

/-- Python `d[k] = v`: replace in place when the key exists (position
kept), append otherwise. -/
def dictSet (d : FeatureDict) (k : Nat) (v : FeatureClass) : FeatureDict :=
  match d with
  | [] => [(k, v)]
  | (k', v') :: rest =>
    if k' = k then (k', v) :: rest else (k', v') :: dictSet rest k v

/-- Python `d.pop(k)`: drop the entry with key `k`. -/
def dictPop (d : FeatureDict) (k : Nat) : FeatureDict :=
  match d with
  | [] => []
  | (k', v') :: rest =>
    if k' = k then rest else (k', v') :: dictPop rest k

/-- The class-level features-decoder state: a heap of dict objects
(addresses are indices into `dicts`), the `_features_decoder_dic` table
mapping device identifiers to dict addresses, and the address of the
built-in `FeatureCharacteristic.DEFAULT_MASK_TO_FEATURE_DIC` object
(modelled from the spec: `ble_node_definitions.py` is not among the
analysed sources; only the object's existence matters here). -/
structure FeatureRegistry where
  dicts : List FeatureDict
  table : List (Nat × Nat)
  defaultAddr : Nat
deriving DecidableEq

/-- Dereference a dict object. -/
def FeatureRegistry.readDict (r : FeatureRegistry) (a : Nat) : FeatureDict :=
  r.dicts.getD a []

/-- In-place mutation of the dict object at address `a`. -/
def FeatureRegistry.writeDict (r : FeatureRegistry) (a : Nat) (d : FeatureDict) :
    FeatureRegistry :=
  { r with dicts := r.dicts.set a d }

/-- Allocate a fresh dict object with the given contents. -/
def FeatureRegistry.alloc (r : FeatureRegistry) (d : FeatureDict) :
    FeatureRegistry × Nat :=
  ({ r with dicts := r.dicts ++ [d] }, r.dicts.length)

/-- All stored addresses are valid heap addresses. -/
def FeatureRegistry.wf (r : FeatureRegistry) : Prop :=
  r.defaultAddr < r.dicts.length ∧ ∀ p ∈ r.table, p.2 < r.dicts.length

instance (r : FeatureRegistry) : Decidable r.wf := by
  unfold FeatureRegistry.wf
  infer_instance

/-- The 32-iteration mask loop of `add_features_to_node` (lines 524-530):
for each single-bit mask 1, 2, 4, ..., 2^31 in turn, when
`decoder_to_check` holds that mask, commit the entry into the decoder and
pop it from `decoder_to_check`. -/
def maskLoop : Nat → Nat → FeatureDict → FeatureDict → FeatureDict × FeatureDict
  | 0, _, decoder, to_check => (decoder, to_check)
  | k + 1, mask, decoder, to_check =>
    match to_check.lookup mask with
    | some fc => maskLoop k (mask <<< 1) (dictSet decoder mask fc) (dictPop to_check mask)
    | none => maskLoop k (mask <<< 1) decoder to_check

/-- Lines 516-534 of `Manager.add_features_to_node`, the registration
logic that follows line 514: fetch or install (before any validation) the
decoder dict for `device_id`, copy the argument into `decoder_to_check`,
run the 32-bit mask loop committing entries in place into the stored
decoder, and finally raise InvalidFeatureBitMaskException when
`decoder_to_check` was not fully consumed (the entries already committed,
and a freshly installed empty decoder, remain in the registry). -/
def add_features_to_node_after_line_514 (r : FeatureRegistry) (device_id : Nat)
    (mask_to_features_dic : FeatureDict) : FeatureRegistry × Except PyErr Unit :=
  let (r1, a) :=
    match r.table.lookup device_id with
    | some a => (r, a)
    | none =>
      let (r', a) := r.alloc []
      ({ r' with table := r'.table ++ [(device_id, a)] }, a)
  let decoder_to_check := mask_to_features_dic
  let (decoder, to_check) := maskLoop 32 1 (r1.readDict a) decoder_to_check
  let r2 := r1.writeDict a decoder
  if to_check = [] then (r2, Except.ok ())
  else (r2, Except.error PyErr.invalidMask)

/-- `Manager.add_features_to_node` (lines 478-534).  The first executable
statement of the body is line 514, `manager.discover(False,
SCANNING_TIME_s)`: neither `manager` nor `SCANNING_TIME_s` is defined in
the scope of `manager.py` (both are globals of the separate example
script the line was evidently pasted from), so every call raises
NameError before the registration logic of lines 516-534 (embedded above
as `add_features_to_node_after_line_514`) can run, and the registry is
left untouched. -/
def add_features_to_node (r : FeatureRegistry) (device_id : Nat)
    (mask_to_features_dic : FeatureDict) : FeatureRegistry × Except PyErr Unit :=
  match device_id, mask_to_features_dic with
  | _, _ => (r, Except.error PyErr.nameError)

/-- `Manager.get_node_features` (lines 536-550): return a `.copy()` — a
freshly allocated dict object — of the stored decoder for `device_id`
when registered, of `DEFAULT_MASK_TO_FEATURE_DIC` otherwise. -/
def get_node_features (r : FeatureRegistry) (device_id : Nat) :
    FeatureRegistry × Nat :=
  match r.table.lookup device_id with
  | some a => r.alloc (r.readDict a)
  | none => r.alloc (r.readDict r.defaultAddr)

/-- The registry after `get_node_features r device_id` has returned,
with the returned (freshly copied) dict object subsequently mutated by
the caller to contents `d'`. -/
def gnf_mutated (r : FeatureRegistry) (device_id : Nat) (d' : FeatureDict) :
    FeatureRegistry :=
  (get_node_features r device_id).1.writeDict (get_node_features r device_id).2 d'

/-! Concrete states used by counterexamples and witnesses. -/

/-- A non-connected node with tag "aa". -/
def nodeA_idle : Node := ⟨"aa", NodeStatus.idle⟩

/-- A non-connected node with tag "bb". -/
def nodeB_idle : Node := ⟨"bb", NodeStatus.idle⟩

/-- A connected node with tag "cc". -/
def nodeC_conn : Node := ⟨"cc", NodeStatus.connected⟩

/-- A manager whose node list holds two adjacent non-connected nodes. -/
def stTwoIdle : ManagerSt :=
  { mk_manager_state with heap := ⟨[[nodeA_idle, nodeB_idle]]⟩ }

/-- A manager in scanning state with an active scanner thread and one
registered listener. -/
def stScanW : ManagerSt :=
  { mk_manager_state with
    is_scanning := true
    scanner_thread := some ()
    listeners := [1] }

/-- A manager in scanning state (shape left by `start_discovery`). -/
def stScanning : ManagerSt :=
  { mk_manager_state with is_scanning := true, scanner_thread := some () }

/-- A manager with listener 5 registered. -/
def stL5 : ManagerSt := { mk_manager_state with listeners := [5] }

/-- An empty feature registry: only the built-in default dict (at address
0, with a representative content) is allocated. -/
def r0 : FeatureRegistry := ⟨[[(1, 100)]], [], 0⟩

/-- A feature registry with device 128 registered at address 1. -/
def rW : FeatureRegistry := ⟨[[(1, 100)], [(2, 6)]], [(128, 1)], 0⟩

/-! Helper lemmas about the list heaps. -/

theorem getD_set_self {α : Type} (l : List α) (i : Nat) (x d : α)
    (h : i < l.length) : (l.set i x).getD i d = x := by
  induction l generalizing i with
  | nil => simp at h
  | cons y ys ih =>
    cases i with
    | zero => simp
    | succ j =>
      simp only [List.set, List.getD_cons_succ]
      exact ih j (by simpa using h)

theorem getD_set_ne {α : Type} (l : List α) (i j : Nat) (x d : α)
    (h : i ≠ j) : (l.set i x).getD j d = l.getD j d := by
  induction l generalizing i j with
  | nil => simp [List.set]
  | cons y ys ih =>
    cases i with
    | zero =>
      cases j with
      | zero => exact absurd rfl h
      | succ j' => simp [List.set]
    | succ i' =>
      cases j with
      | zero => simp [List.set]
      | succ j' =>
        simp only [List.set, List.getD_cons_succ]
        exact ih i' j' (by omega)

theorem getD_append_self_len {α : Type} (l : List α) (x d : α) :
    (l ++ [x]).getD l.length d = x := by
  induction l with
  | nil => simp
  | cons y ys ih =>
    simp only [List.cons_append, List.length_cons, List.getD_cons_succ]
    exact ih

theorem read_write_self (h : NodeHeap) (a : Nat) (l : List Node)
    (ha : a < h.lists.length) : (h.write a l).read a = l :=
  getD_set_self h.lists a l [] ha

theorem write_preserves_length (h : NodeHeap) (a : Nat) (l : List Node) :
    (h.write a l).lists.length = h.lists.length := by
  simp [NodeHeap.write]

/-- C2: `remove_nodes` on the list `[nodeA_idle, nodeB_idle]` — two
adjacent non-connected nodes — removes only the first one: the iterator
fetches index 0 (nodeA), removes it in place (nodeB shifts to index 0),
then fetches index 1, which is past the end, so nodeB — not connected —
survives, both in `remove_nodes` and in `reset_discovery`.  The claim
(and the code's own docstring, "Remove all nodes not bounded") requires
both to be removed. -/
theorem removeNodes_skips_second_adjacent_nonconnected :
    nodes_of (remove_nodes stTwoIdle) = [nodeB_idle] ∧
    nodeB_idle.is_connected = false ∧
    nodes_of (reset_discovery (Except.ok ()) stTwoIdle).1 = [nodeB_idle] := by
  decide

/-- C3: `add_features_to_node` with a valid single-bit mapping `{1: 7}`
does not complete successfully: line 514 references the undefined names
`manager` and `SCANNING_TIME_s`, so the call raises NameError and leaves
the registry untouched, against the claim that it completes and registers
the entries. -/
theorem addFeatures_raises_nameError_on_valid_masks :
    add_features_to_node r0 128 [(1, 7)] = (r0, Except.error PyErr.nameError) := by
  decide

/-- C4: `add_features_to_node` with the invalid mapping `{3: 7}` raises
NameError (line 514), not InvalidFeatureBitMaskException, against the
claim.  Moreover, even the registration logic of lines 516-534 taken on
its own (`add_features_to_node_after_line_514`) is not atomic: on
`{1: 7, 3: 8}` it installs a decoder for the fresh device id and commits
the single-bit entry `(1, 7)` into it before raising InvalidMask. -/
theorem addFeatures_raises_nameError_on_invalid_mask :
    add_features_to_node r0 128 [(3, 7)] = (r0, Except.error PyErr.nameError) ∧
    add_features_to_node r0 128 [(3, 7)] ≠ (r0, Except.error PyErr.invalidMask) ∧
    (add_features_to_node_after_line_514 r0 128 [(1, 7), (3, 8)]).2 =
      Except.error PyErr.invalidMask ∧
    (add_features_to_node_after_line_514 r0 128 [(1, 7), (3, 8)]).1.readDict 1 =
      [(1, 7)] ∧
    (add_features_to_node_after_line_514 r0 128 [(1, 7), (3, 8)]).1.table =
      [(128, 1)] := by
  decide

/-- C5 counterexample: the sequence returned by `get_nodes` IS changed by
a later successful `add_node` — `get_nodes` returns the live list object
(line 433 returns `self._discovered_nodes` without copying), so reading
it after the `add_node` shows the appended node, refuting the claim that
the returned sequence is a snapshot unaffected by later mutations. -/
theorem getNodes_snapshot_counterexample :
    (add_node mk_manager_state nodeA_idle).2.1 = true ∧
    (add_node mk_manager_state nodeA_idle).1.heap.read (get_nodes mk_manager_state) ≠
      mk_manager_state.heap.read (get_nodes mk_manager_state) := by
  decide

/-- C5 amended: `get_nodes` returns (under the node-list lock) the
manager's node-list object itself, not a copy: the returned value is the
address of `_discovered_nodes`, and after a successful `add_node` the
sequence read through that address is the old list with the new node
appended (the mutation is visible to holders of the returned list). -/
theorem getNodes_returns_live_list (st : ManagerSt) (n : Node)
    (hwf : st.nodes_wf) :
    get_nodes st = st.nodesAddr ∧
    ((add_node st n).2.1 = true →
      (add_node st n).1.heap.read (get_nodes st) = nodes_of st ++ [n]) := by
  refine ⟨rfl, fun hs => ?_⟩
  by_cases hc : (nodes_of st).any (fun node => n.get_tag == node.get_tag) = true
  · simp [add_node, hc] at hs
  · simp only [add_node, hc, Bool.false_eq_true, if_false, ite_false, if_neg]
    exact read_write_self st.heap st.nodesAddr _ hwf

/-- C5 witness: the amended statement at the initial manager state and a
concrete node. -/
theorem getNodes_returns_live_list_witness :
    get_nodes mk_manager_state = mk_manager_state.nodesAddr ∧
    ((add_node mk_manager_state nodeA_idle).2.1 = true →
      (add_node mk_manager_state nodeA_idle).1.heap.read (get_nodes mk_manager_state) =
        nodes_of mk_manager_state ++ [nodeA_idle]) :=
  getNodes_returns_live_list mk_manager_state nodeA_idle (by decide)

/-- C6: while `is_discovering` is true, both `discover` and
`start_discovery` return False, leave the whole manager state (scanning
flag, node list, scanner references, listeners) unchanged, and submit no
listener notification at all — both methods test `is_discovering` and
return before `_notify_discovery_change` can run. -/
theorem discover_while_scanning_is_noop (scan_result : Except Unit Unit)
    (st : ManagerSt) (show_warnings : Bool) (timeout_s : Nat)
    (h : is_discovering st = true) :
    discover scan_result st show_warnings timeout_s = (st, [], Except.ok false) ∧
    start_discovery st show_warnings timeout_s = (st, [], Except.ok false) := by
  constructor <;> simp [discover, start_discovery, h]

/-- C6 witness: the statement at a concrete scanning state. -/
theorem discover_while_scanning_is_noop_witness :
    discover (Except.ok ()) stScanning false 0 = (stScanning, [], Except.ok false) ∧
    start_discovery stScanning false 0 = (stScanning, [], Except.ok false) :=
  discover_while_scanning_is_noop (Except.ok ()) stScanning false 0 (by decide)

/-- C8 counterexample: `Manager.__init__` never assigns `_INSTANCE` (only
`instance()` does), so a successful direct construction leaves the class
attribute at None — as the first conjunct shows — and a second direct
construction in that state succeeds instead of raising: duplicate manager
construction is silently allowed while an instance already exists. -/
theorem manager_duplicate_construction_allowed :
    manager_init none = Except.ok (mk_manager_state, (none : Option ManagerSt)) ∧
    manager_init (none : Option ManagerSt) ≠ Except.error PyErr.alreadyExists := by
  refine ⟨rfl, fun h => ?_⟩
  simp [manager_init] at h

/-- C8 amended: `instance()` always returns the same manager across calls
(re-running it on the class state it leaves behind returns the same
result), and constructing a Manager when the cached `_INSTANCE` has been
set — that is, after `instance()` has been called — raises AlreadyExists;
a directly constructed Manager, however, never registers itself in
`_INSTANCE`, so duplicate direct construction is not detected. -/
theorem manager_instance_is_singleton (g : Option ManagerSt) (m : ManagerSt) :
    manager_instance (manager_instance g).2 = manager_instance g ∧
    manager_init (some m) = Except.error PyErr.alreadyExists := by
  cases g <;> exact ⟨rfl, rfl⟩

/-- C9 counterexample: with listener 5 already registered, adding it again
(a no-op) and then removing it leaves the listener set empty, not the
original `[5]`: add-then-remove does not restore the original set when the
listener was previously registered. -/
theorem add_remove_listener_not_inverse :
    remove_listener (add_listener stL5 (some 5)) (some 5) ≠ stL5 := by
  decide

/-- C9 amended: listener add/remove has idempotent set semantics — adding
the same listener twice leaves exactly one registration; removing an
unregistered listener is a no-op raising no error; and adding then
removing a listener that was *not previously registered* restores the
original state (when the listener was already registered, add-then-remove
drops the pre-existing registration instead, as the counterexample
shows). -/
theorem listener_add_remove_set_semantics (st : ManagerSt) (l : Nat)
    (hnd : st.listeners.Nodup) :
    (add_listener (add_listener st (some l)) (some l)).listeners.count l = 1 ∧
    (l ∉ st.listeners → remove_listener st (some l) = st) ∧
    (l ∉ st.listeners → remove_listener (add_listener st (some l)) (some l) = st) := by
  refine ⟨?_, fun hl => ?_, fun hl => ?_⟩
  · by_cases hl : l ∈ st.listeners
    · simp only [add_listener, if_pos hl]
      exact List.count_eq_one_of_mem hnd hl
    · simp only [add_listener, if_neg hl, List.mem_append, List.mem_singleton,
        or_true, if_true, List.count_append]
      rw [List.count_eq_zero.mpr hl]
      simp
  · simp [remove_listener, hl]
  · simp only [add_listener, if_neg hl, remove_listener, List.mem_append,
      List.mem_singleton, or_true, if_true]
    rw [List.erase_append_right _ (by simpa using hl)]
    simp

/-- C9 witness: the amended statement at the initial manager state and
listener 7. -/
theorem listener_add_remove_set_semantics_witness :
    (add_listener (add_listener mk_manager_state (some 7)) (some 7)).listeners.count 7 = 1 ∧
    remove_listener mk_manager_state (some 7) = mk_manager_state ∧
    remove_listener (add_listener mk_manager_state (some 7)) (some 7) = mk_manager_state := by
  have h := listener_add_remove_set_semantics mk_manager_state 7 (by decide)
  exact ⟨h.1, h.2.1 (by decide), h.2.2 (by decide)⟩

theorem any_tag_iff_mem (l : List Node) (t : String) :
    (l.any (fun node => t == node.get_tag)) = true ↔ t ∈ l.map Node.get_tag := by
  simp only [List.any_eq_true, List.mem_map, beq_iff_eq]
  exact ⟨fun ⟨x, hx, he⟩ => ⟨x, hx, he.symm⟩, fun ⟨x, hx, he⟩ => ⟨x, hx, he.symm⟩⟩

theorem add_node_duplicate_tag (st : ManagerSt) (n : Node)
    (h : n.get_tag ∈ tags_of st) :
    add_node st n = (st, false, []) := by
  have hc : (nodes_of st).any (fun node => n.get_tag == node.get_tag) = true :=
    (any_tag_iff_mem _ _).mpr h
  simp [add_node, hc]

theorem add_node_fresh_tag (st : ManagerSt) (n : Node)
    (hwf : st.nodes_wf) (h : n.get_tag ∉ tags_of st) :
    (add_node st n).2.1 = true ∧
    nodes_of (add_node st n).1 = nodes_of st ++ [n] := by
  have hc : ¬((nodes_of st).any (fun node => n.get_tag == node.get_tag) = true) :=
    fun hh => h ((any_tag_iff_mem _ _).mp hh)
  constructor
  · simp [add_node, hc]
  · rw [show (add_node st n).1 =
        { st with heap := st.heap.write st.nodesAddr (nodes_of st ++ [n]) } by
      simp [add_node, hc]]
    exact read_write_self st.heap st.nodesAddr _ hwf

theorem add_node_preserves_nodes_wf (st : ManagerSt) (n : Node)
    (hwf : st.nodes_wf) :
    (add_node st n).1.nodes_wf := by
  by_cases hc : ((nodes_of st).any (fun node => n.get_tag == node.get_tag)) = true
  · rw [show (add_node st n).1 = st by simp [add_node, hc]]
    exact hwf
  · rw [show (add_node st n).1 =
        { st with heap := st.heap.write st.nodesAddr (nodes_of st ++ [n]) } by
      simp [add_node, hc]]
    simpa only [ManagerSt.nodes_wf, write_preserves_length] using hwf

theorem add_node_preserves_inv (st : ManagerSt) (n : Node)
    (h : st.nodes_wf ∧ (tags_of st).Nodup) :
    (add_node st n).1.nodes_wf ∧ (tags_of (add_node st n).1).Nodup := by
  refine ⟨add_node_preserves_nodes_wf st n h.1, ?_⟩
  by_cases hm : n.get_tag ∈ tags_of st
  · rw [add_node_duplicate_tag st n hm]
    exact h.2
  · have hfresh := add_node_fresh_tag st n h.1 hm
    unfold tags_of
    rw [hfresh.2, List.map_append]
    rw [List.nodup_append]
    refine ⟨h.2, List.nodup_singleton _, ?_⟩
    simp only [List.map_cons, List.map_nil]
    rw [List.disjoint_singleton]
    exact hm

theorem apply_add_nodes_inv (ns : List Node) (st : ManagerSt)
    (h : st.nodes_wf ∧ (tags_of st).Nodup) :
    (apply_add_nodes st ns).nodes_wf ∧ (tags_of (apply_add_nodes st ns)).Nodup := by
  induction ns generalizing st with
  | nil => exact h
  | cons n ns ih =>
    have h1 := add_node_preserves_inv st n h
    simpa only [apply_add_nodes, List.foldl_cons] using ih (add_node st n).1 h1

/-- C1: starting from the freshly constructed manager, every sequence of
`add_node` calls leaves the node list free of duplicate tags; a call
whose node's tag is already present returns False and leaves the state
(and the event trace) unchanged; a call with a fresh tag appends the node
and returns True. -/
theorem addNode_keeps_tags_unique :
    (∀ ns : List Node, (tags_of (apply_add_nodes mk_manager_state ns)).Nodup) ∧
    (∀ st n, n.get_tag ∈ tags_of st → add_node st n = (st, false, [])) ∧
    (∀ st n, st.nodes_wf → n.get_tag ∉ tags_of st →
      (add_node st n).2.1 = true ∧
      nodes_of (add_node st n).1 = nodes_of st ++ [n]) := by
  refine ⟨fun ns => ?_, add_node_duplicate_tag, add_node_fresh_tag⟩
  exact (apply_add_nodes_inv ns mk_manager_state ⟨by decide, by decide⟩).2

/-- C1 witness: the statement at concrete inputs — a duplicate-laden add
sequence still yields duplicate-free tags, a duplicate add is rejected
unchanged, a fresh add appends and succeeds. -/
theorem addNode_keeps_tags_unique_witness :
    (tags_of (apply_add_nodes mk_manager_state [nodeA_idle, nodeB_idle, nodeA_idle])).Nodup ∧
    add_node stTwoIdle nodeA_idle = (stTwoIdle, false, []) ∧
    ((add_node mk_manager_state nodeB_idle).2.1 = true ∧
     nodes_of (add_node mk_manager_state nodeB_idle).1 =
       nodes_of mk_manager_state ++ [nodeB_idle]) := by
  have h := addNode_keeps_tags_unique
  exact ⟨h.1 [nodeA_idle, nodeB_idle, nodeA_idle],
         h.2.1 stTwoIdle nodeA_idle (by decide),
         h.2.2 mk_manager_state nodeB_idle (by decide) (by decide)⟩

theorem count_discovery_change_in_map (ls : List Nat) (li : Nat) (b : Bool)
    (hnd : ls.Nodup) (hmem : li ∈ ls) :
    (ls.map (fun x => Event.discovery_change x b)).count
      (Event.discovery_change li b) = 1 := by
  have hinj : Function.Injective (fun x => Event.discovery_change x b) := by
    intro a c hac
    simpa using hac
  exact List.count_eq_one_of_mem (hnd.map hinj) (List.mem_map_of_mem _ hmem)

/-- C7: `stop_discovery` returns False, doing nothing, whenever
`is_discovering` is false; and whenever it returns True, the scanning
flag is false in the resulting state and the submitted notifications are
exactly one discovery-stop callback (`on_discovery_change` with status
False) per registered listener — exactly once per listener when the
listener list is duplicate-free, as `add_listener` keeps it. -/
theorem stopDiscovery_false_or_single_stop_event (join_result : Except Unit Unit)
    (st : ManagerSt) :
    (is_discovering st = false →
      stop_discovery join_result st = (st, [], Except.ok false)) ∧
    (∀ st' evs, stop_discovery join_result st = (st', evs, Except.ok true) →
      is_discovering st' = false ∧
      evs = st.listeners.map (fun li => Event.discovery_change li false) ∧
      (st.listeners.Nodup → ∀ li ∈ st.listeners,
        evs.count (Event.discovery_change li false) = 1)) := by
  constructor
  · intro h
    have h' : st.is_scanning = false := h
    simp [stop_discovery, is_discovering, h']
  · intro st' evs h
    by_cases hs : st.is_scanning = true
    · cases hth : st.scanner_thread with
      | none => simp [stop_discovery, is_discovering, hs, hth] at h
      | some u =>
        cases join_result with
        | error e => simp [stop_discovery, is_discovering, hs, hth] at h
        | ok u2 =>
          simp only [stop_discovery, is_discovering, hs, hth, if_pos,
            notify_discovery_change, Prod.mk.injEq] at h
          obtain ⟨h1, h2, -⟩ := h
          subst h1
          subst h2
          refine ⟨rfl, rfl, fun hnd li hmem => ?_⟩
          exact count_discovery_change_in_map st.listeners li false hnd hmem
    · have hs' : st.is_scanning = false := by
        cases hvs : st.is_scanning
        · rfl
        · exact absurd hvs hs
      simp [stop_discovery, is_discovering, hs'] at h

/-- C7 witness: the statement at a concrete idle state (returns False)
and at a concrete scanning state with listener 1 (scanning flag cleared,
exactly one stop notification for listener 1). -/
theorem stopDiscovery_false_or_single_stop_event_witness :
    stop_discovery (Except.ok ()) mk_manager_state =
      (mk_manager_state, [], Except.ok false) ∧
    is_discovering { stScanW with is_scanning := false } = false ∧
    [Event.discovery_change 1 false].count (Event.discovery_change 1 false) = 1 := by
  have h2 := (stopDiscovery_false_or_single_stop_event (Except.ok ()) stScanW).2
    { stScanW with is_scanning := false } [Event.discovery_change 1 false] (by decide)
  exact ⟨(stopDiscovery_false_or_single_stop_event (Except.ok ()) mk_manager_state).1
           (by decide),
         h2.1,
         h2.2.2 (by decide) 1 (by decide)⟩

theorem getD_alloc_set_other (l : List FeatureDict) (c d' : FeatureDict)
    (b : Nat) (hb : b < l.length) :
    (((l ++ [c]).set l.length d').getD b []) = l.getD b [] := by
  rw [getD_set_ne _ _ _ _ _ (by omega)]
  exact List.getD_append _ _ _ _ hb

theorem mem_of_lookup_eq_some {k a : Nat} {l : List (Nat × Nat)}
    (h : l.lookup k = some a) : (k, a) ∈ l := by
  induction l with
  | nil => simp [List.lookup] at h
  | cons p rest ih =>
    obtain ⟨k', b⟩ := p
    by_cases hk : k = k'
    · subst hk
      simp [List.lookup] at h
      simp [h]
    · have hbeq : (k == k') = false := beq_eq_false_iff_ne.mpr hk
      simp only [List.lookup, hbeq] at h
      exact List.mem_cons_of_mem _ (ih h)

/-- C10: `get_node_features` returns a `.copy()` — a freshly allocated
dict object whose contents equal the stored decoder for the device id
(the built-in default mapping when unregistered); mutating the returned
object changes neither the registry table, nor any registered decoder
dict, nor the default mapping, and a later `get_node_features` for the
same identifier still returns the same entries. -/
theorem getNodeFeatures_returns_copy (r : FeatureRegistry) (device_id : Nat)
    (d' : FeatureDict) (hwf : r.wf) :
    (get_node_features r device_id).1.table = r.table ∧
    (get_node_features r device_id).1.readDict (get_node_features r device_id).2 =
      r.readDict ((r.table.lookup device_id).getD r.defaultAddr) ∧
    (∀ p ∈ r.table, (gnf_mutated r device_id d').readDict p.2 = r.readDict p.2) ∧
    (gnf_mutated r device_id d').readDict r.defaultAddr =
      r.readDict r.defaultAddr ∧
    (get_node_features (gnf_mutated r device_id d') device_id).1.readDict
        (get_node_features (gnf_mutated r device_id d') device_id).2 =
      (get_node_features r device_id).1.readDict (get_node_features r device_id).2 := by
  obtain ⟨hdef, htab⟩ := hwf
  cases hl : r.table.lookup device_id with
  | some a =>
    have ha : a < r.dicts.length := htab _ (mem_of_lookup_eq_some hl)
    refine ⟨?_, ?_, ?_, ?_, ?_⟩
    · simp [get_node_features, hl, FeatureRegistry.alloc]
    · simp only [get_node_features, hl, FeatureRegistry.alloc,
        FeatureRegistry.readDict, Option.getD_some]
      exact getD_append_self_len _ _ _
    · intro p hp
      simp only [gnf_mutated, get_node_features, hl, FeatureRegistry.alloc,
        FeatureRegistry.writeDict, FeatureRegistry.readDict]
      exact getD_alloc_set_other _ _ _ _ (htab _ hp)
    · simp only [gnf_mutated, get_node_features, hl, FeatureRegistry.alloc,
        FeatureRegistry.writeDict, FeatureRegistry.readDict]
      exact getD_alloc_set_other _ _ _ _ hdef
    · simp only [gnf_mutated, get_node_features, hl, FeatureRegistry.alloc,
        FeatureRegistry.writeDict, FeatureRegistry.readDict]
      rw [getD_append_self_len, getD_append_self_len]
      exact getD_alloc_set_other _ _ _ _ ha
  | none =>
    refine ⟨?_, ?_, ?_, ?_, ?_⟩
    · simp [get_node_features, hl, FeatureRegistry.alloc]
    · simp only [get_node_features, hl, FeatureRegistry.alloc,
        FeatureRegistry.readDict, Option.getD_none]
      exact getD_append_self_len _ _ _
    · intro p hp
      simp only [gnf_mutated, get_node_features, hl, FeatureRegistry.alloc,
        FeatureRegistry.writeDict, FeatureRegistry.readDict]
      exact getD_alloc_set_other _ _ _ _ (htab _ hp)
    · simp only [gnf_mutated, get_node_features, hl, FeatureRegistry.alloc,
        FeatureRegistry.writeDict, FeatureRegistry.readDict]
      exact getD_alloc_set_other _ _ _ _ hdef
    · simp only [gnf_mutated, get_node_features, hl, FeatureRegistry.alloc,
        FeatureRegistry.writeDict, FeatureRegistry.readDict]
      rw [getD_append_self_len, getD_append_self_len]
      exact getD_alloc_set_other _ _ _ _ hdef

/-- C10 witness: the statement at a concrete registry with device 128
registered, mutating the returned copy to contents [(9, 9)]. -/
theorem getNodeFeatures_returns_copy_witness :
    (get_node_features rW 128).1.table = rW.table ∧
    (get_node_features rW 128).1.readDict (get_node_features rW 128).2 =
      rW.readDict ((rW.table.lookup 128).getD rW.defaultAddr) ∧
    (gnf_mutated rW 128 [(9, 9)]).readDict 1 = rW.readDict 1 ∧
    (gnf_mutated rW 128 [(9, 9)]).readDict rW.defaultAddr =
      rW.readDict rW.defaultAddr ∧
    (get_node_features (gnf_mutated rW 128 [(9, 9)]) 128).1.readDict
        (get_node_features (gnf_mutated rW 128 [(9, 9)]) 128).2 =
      (get_node_features rW 128).1.readDict (get_node_features rW 128).2 := by
  have h := getNodeFeatures_returns_copy rW 128 [(9, 9)] (by decide)
  exact ⟨h.1, h.2.1, h.2.2.1 (128, 1) (by decide), h.2.2.2.1, h.2.2.2.2⟩

end BlueST
